import Mathlib

/-!
Verification of the go_mailer library (mailer.go, templates.go).

The Go source is shallowly embedded: message assembly is pure string
building; the Go map used for headers is modelled by an explicit
iteration order (any permutation of the four inserted pairs); the
`math/rand` source behind boundary generation is a stream of values in
`Fin 36` (each `r.Intn(36)` call); the SMTP client and the template
engine are oracles answering each call, and `Send` records the sequence
of client operations it attempts together with its result.
-/

/-! ## Data model (mailer.go lines 210-246) -/

structure Header where
  From : String
  MimeVersion : String
  Subject : String
  To : String
deriving DecidableEq

structure CRAMMD5Auth where
  UserName : String
  Secret : String
deriving DecidableEq

structure PlainAuth where
  UserName : String
  Password : String
  Host : String
deriving DecidableEq

structure AuthConfig where
  Crammd5Auth : Option CRAMMD5Auth
  PlainAuth : Option PlainAuth
deriving DecidableEq

structure Body where
  ContentType : String
  Charset : String
  Data : String
deriving DecidableEq

structure TlsConfig where
  ServerName : String
deriving DecidableEq

structure Params where
  AuthConfig : Option AuthConfig
  Body : List Body
  Header : Header
  SmtpServerHost : String
  SmtpServerPort : Int
  TlsConfig : Option TlsConfig

/-! ## Constructors (mailer.go lines 348-435) -/

def GenParams (smtpServerHost : String) (smtpServerPort : Int) (header : Header)
    (body : List Body) (authConfig : Option AuthConfig) (tlsConfig : Option TlsConfig) :
    Params :=
  { AuthConfig := authConfig, Body := body, Header := header,
    SmtpServerHost := smtpServerHost, SmtpServerPort := smtpServerPort,
    TlsConfig := tlsConfig }

def GenCRAMMD5Auth (userName : String) (secret : String) : AuthConfig :=
  { Crammd5Auth := some { UserName := userName, Secret := secret },
    PlainAuth := none }

def GenPlainAuth (userName : String) (password : String) (host : String) : AuthConfig :=
  { Crammd5Auth := none,
    PlainAuth := some { UserName := userName, Password := password, Host := host } }

def GenTlsConfig (serverName : String) : TlsConfig :=
  { ServerName := serverName }

def GenHeader (from_ : String) (to_ : String) (subject : String) (mimeVersion : String) :
    Header :=
  { From := from_, MimeVersion := mimeVersion, Subject := subject, To := to_ }

/-! ## Boundary generation (mailer.go lines 489-497)

`genBoundary` draws 32 characters from the 36-character set
`"1234567890abcdefghijklmnopqrstuvwxyz"`; the random source is the
stream `r` of results of the successive `r.Intn(36)` calls. -/

def boundaryCharset : List Char := ("1234567890abcdefghijklmnopqrstuvwxyz").data

def genBoundary (r : Nat → Fin 36) : String :=
  String.mk ((List.range 32).map (fun i => boundaryCharset.getD (r i).val 'a'))

/-! ## Message assembly (mailer.go lines 252-276)

The Go code inserts the four header pairs into a map and iterates it;
`headerPairs` is the inserted contents, and an iteration order is any
permutation of it.  The remaining chunks are appended exactly as the
source does. -/

def headerPairs (h : Header) : List (String × String) :=
  [(("From"), h.From), (("To"), h.To), (("Subject"), h.Subject),
   (("MIME-version"), h.MimeVersion)]

def hdrLineStr (kv : String × String) : String := kv.1 ++ (": ") ++ kv.2

def concatStr : List String → String
  | [] => ("")
  | s :: rest => s ++ concatStr rest

def headerChunk (order : List (String × String)) : String :=
  concatStr (order.map (fun kv => hdrLineStr kv ++ ("\r\n")))

def mpCtLine (boundary : String) : String :=
  ("Content-Type: multipart/alternative; boundary=\"") ++ boundary ++ ("\"")

def partCtLine (b : Body) : String :=
  ("Content-Type: ") ++ b.ContentType ++ ("; charset=\"") ++ b.Charset ++ ("\"")

def partChunk (boundary : String) (b : Body) : String :=
  ("--") ++ boundary ++ ("\r\n") ++ partCtLine b ++ ("\r\n") ++ b.Data ++ ("\r\n")

def singleChunk (b : Body) : String :=
  partCtLine b ++ ("\r\n") ++ b.Data ++ ("\r\n")

def mpHeader (bodies : List Body) (boundary : String) : String :=
  if 1 < bodies.length then mpCtLine boundary ++ ("\r\n") else ("")

def mpTerm (bodies : List Body) (boundary : String) : String :=
  if 1 < bodies.length then ("--") ++ boundary ++ ("--\r\n") else ("")

def assembleMsg (order : List (String × String)) (bodies : List Body) (boundary : String) :
    String :=
  headerChunk order ++ mpHeader bodies boundary
    ++ concatStr (bodies.map (fun b =>
        if 1 < bodies.length then partChunk boundary b else singleChunk b))
    ++ mpTerm bodies boundary

/-! ## SMTP session (mailer.go lines 278-336)

The network is an oracle answering every client call; `Send` returns
the ordered list of client operations it attempted and its result,
with the exact error strings of the source. -/

inductive SmtpOp where
  | tlsDial | newClient | plainDial | authCram | authPlain
  | mail | rcpt | dataOpen | dataWrite | dataClose | quit
deriving DecidableEq

structure Network where
  tlsDial : String → TlsConfig → Except String Unit
  newClient : String → Except String Unit
  plainDial : String → Except String Unit
  authCram : String → String → Except String Unit
  authPlain : String → String → String → Except String Unit
  mail : String → Except String Unit
  rcpt : String → Except String Unit
  dataOpen : Except String Unit
  dataWrite : String → Except String Unit
  dataClose : Except String Unit
  quit : Except String Unit

def afterAuth (p : Params) (net : Network) (body : String) (acc : List SmtpOp) :
    List SmtpOp × Except String Unit :=
  match net.mail p.Header.From with
  | .error e => (acc ++ [SmtpOp.mail], .error (("(*Client) Mail() error. err=") ++ e))
  | .ok _ =>
  match net.rcpt p.Header.To with
  | .error e => (acc ++ [SmtpOp.mail, SmtpOp.rcpt],
      .error (("(*Client) Rcpt() error. err=") ++ e))
  | .ok _ =>
  match net.dataOpen with
  | .error e => (acc ++ [SmtpOp.mail, SmtpOp.rcpt, SmtpOp.dataOpen],
      .error (("(*Client) Data() error. err=") ++ e))
  | .ok _ =>
  match net.dataWrite body with
  | .error e => (acc ++ [SmtpOp.mail, SmtpOp.rcpt, SmtpOp.dataOpen, SmtpOp.dataWrite],
      .error (("(io.WriteCloser) Write() error. err=") ++ e))
  | .ok _ =>
  match net.dataClose with
  | .error e =>
      -- the source labels a failure of the data writer close with the Quit message
      (acc ++ [SmtpOp.mail, SmtpOp.rcpt, SmtpOp.dataOpen, SmtpOp.dataWrite,
        SmtpOp.dataClose],
       .error (("(*Client) Quit() error. err=") ++ e))
  | .ok _ =>
  match net.quit with
  | .error e => (acc ++ [SmtpOp.mail, SmtpOp.rcpt, SmtpOp.dataOpen, SmtpOp.dataWrite,
      SmtpOp.dataClose, SmtpOp.quit],
      .error (("(*Client) Quit() error. err=") ++ e))
  | .ok _ => (acc ++ [SmtpOp.mail, SmtpOp.rcpt, SmtpOp.dataOpen, SmtpOp.dataWrite,
      SmtpOp.dataClose, SmtpOp.quit], .ok ())

def tryPlainAuth (p : Params) (net : Network) (body : String) (ac : AuthConfig)
    (acc : List SmtpOp) : List SmtpOp × Except String Unit :=
  match ac.PlainAuth with
  | none => afterAuth p net body acc
  | some pa =>
    match net.authPlain pa.UserName pa.Password pa.Host with
    | .error e => (acc ++ [SmtpOp.authPlain],
        .error (("(*Client) Auth() error. err=") ++ e))
    | .ok _ => afterAuth p net body (acc ++ [SmtpOp.authPlain])

def afterConnect (p : Params) (net : Network) (body : String) (acc : List SmtpOp) :
    List SmtpOp × Except String Unit :=
  match p.AuthConfig with
  | none => afterAuth p net body acc
  | some ac =>
    match ac.Crammd5Auth with
    | none => tryPlainAuth p net body ac acc
    | some ca =>
      match net.authCram ca.UserName ca.Secret with
      | .error e => (acc ++ [SmtpOp.authCram],
          .error (("(*Client) Auth() error. err=") ++ e))
      | .ok _ => tryPlainAuth p net body ac (acc ++ [SmtpOp.authCram])

def smtpAddr (p : Params) : String :=
  p.SmtpServerHost ++ (":") ++ toString p.SmtpServerPort

def Send (p : Params) (order : List (String × String)) (r : Nat → Fin 36) (net : Network) :
    List SmtpOp × Except String Unit :=
  let boundary := genBoundary r
  let body := assembleMsg order p.Body boundary
  match p.TlsConfig with
  | some cfg =>
    match net.tlsDial (smtpAddr p) cfg with
    | .error e => ([SmtpOp.tlsDial], .error (("tls.Dial() error. err=") ++ e))
    | .ok _ =>
      match net.newClient p.SmtpServerHost with
      | .error e => ([SmtpOp.tlsDial, SmtpOp.newClient],
          .error (("smtp.NewClient() error. err=") ++ e))
      | .ok _ => afterConnect p net body [SmtpOp.tlsDial, SmtpOp.newClient]
  | none =>
    match net.plainDial (smtpAddr p) with
    | .error e => ([SmtpOp.plainDial], .error (("smtp.Dial() error. err=") ++ e))
    | .ok _ => afterConnect p net body [SmtpOp.plainDial]

/-! ## Template-based body composition (mailer.go lines 441-483, templates.go)

The template engine is an external collaborator, modelled as an oracle.
The Go functions index `fileNames[0]` with no guard; on an empty list
they panic instead of returning an error, which the embedding renders
as `none` (a `some` result is a normal return, `Except`-style). -/

structure TemplateEngine where
  parseFiles : String → List String → Except String Nat
  executeTpl : Nat → List (String × String) → Except String String

def pathBase (s : String) : String :=
  if s = ("") then (".")
  else
    let stripped := (s.data.reverse.dropWhile (fun c => c = '/')).reverse
    if stripped = [] then ("/")
    else String.mk ((stripped.reverse.takeWhile (fun c => c ≠ '/')).reverse)

def GenBodyFromFiles (eng : TemplateEngine) (contentType : String) (charset : String)
    (fileNames : List String) (params : List (String × String)) :
    Option (Except String Body) :=
  match fileNames with
  | [] => none
  | f0 :: rest =>
    some (match eng.parseFiles (pathBase f0) (f0 :: rest) with
      | .error e => .error e
      | .ok t =>
        match eng.executeTpl t params with
        | .error e => .error e
        | .ok s => .ok { ContentType := contentType, Charset := charset, Data := s })

def HtmlFromFiles (eng : TemplateEngine) (fileNames : List String)
    (params : List (String × String)) : Option (Except String String) :=
  match fileNames with
  | [] => none
  | f0 :: rest =>
    some (match eng.parseFiles (pathBase f0) (f0 :: rest) with
      | .error e => .error e
      | .ok t => eng.executeTpl t params)

def TextFromFiles (eng : TemplateEngine) (fileNames : List String)
    (params : List (String × String)) : Option (Except String String) :=
  match fileNames with
  | [] => none
  | f0 :: rest =>
    some (match eng.parseFiles (pathBase f0) (f0 :: rest) with
      | .error e => .error e
      | .ok t => eng.executeTpl t params)

/-! ## Line structure of the assembled byte stream

`splitCRLF` decomposes a character stream at every `"\r\n"` occurrence
(leftmost first), mirroring how a mail reader sees lines; `concatL`
concatenates chunk lists. -/

def concatL {α : Type} : List (List α) → List α
  | [] => []
  | x :: xs => x ++ concatL xs

def splitCRLF : List Char → List (List Char)
  | [] => [[]]
  | [c] => [[c]]
  | c₁ :: c₂ :: rest =>
    if c₁ = '\r' ∧ c₂ = '\n' then [] :: splitCRLF rest
    else (splitCRLF (c₂ :: rest)).modifyHead (fun l => c₁ :: l)

def hasCRLF : List Char → Bool
  | [] => false
  | [_] => false
  | c₁ :: c₂ :: rest => (c₁ == '\r' && c₂ == '\n') || hasCRLF (c₂ :: rest)

theorem strData_append (a b : String) : (a ++ b).data = a.data ++ b.data := rfl

theorem concatL_append {α : Type} (a b : List (List α)) :
    concatL (a ++ b) = concatL a ++ concatL b := by
  induction a with
  | nil => rfl
  | cons x xs ih => simp [concatL, ih]

theorem splitCRLF_ne_nil (l : List Char) : splitCRLF l ≠ [] := by
  match l with
  | [] => simp [splitCRLF]
  | [c] => simp [splitCRLF]
  | c₁ :: c₂ :: rest =>
    rw [splitCRLF]
    split
    · simp
    · have h := splitCRLF_ne_nil (c₂ :: rest)
      cases hs : splitCRLF (c₂ :: rest) with
      | nil => exact absurd hs h
      | cons a t => simp [List.modifyHead]

theorem modifyHead_append {α : Type} (f : α → α) (a b : List α) (h : a ≠ []) :
    (a ++ b).modifyHead f = a.modifyHead f ++ b := by
  cases a with
  | nil => exact absurd rfl h
  | cons x xs => rfl

theorem splitSeam (d t : List Char) :
    splitCRLF (d ++ '\r' :: '\n' :: t) = splitCRLF d ++ splitCRLF t := by
  match d with
  | [] =>
    show splitCRLF ('\r' :: '\n' :: t) = [[]] ++ splitCRLF t
    rw [splitCRLF, if_pos (by simp)]
    rfl
  | [c] =>
    show splitCRLF (c :: '\r' :: '\n' :: t) = [[c]] ++ splitCRLF t
    rw [splitCRLF, if_neg (by simp), splitCRLF, if_pos (by simp)]
    rfl
  | c₁ :: c₂ :: r =>
    show splitCRLF (c₁ :: c₂ :: (r ++ '\r' :: '\n' :: t))
      = splitCRLF (c₁ :: c₂ :: r) ++ splitCRLF t
    by_cases h : c₁ = '\r' ∧ c₂ = '\n'
    · rw [splitCRLF, if_pos h, splitSeam r t, splitCRLF, if_pos h]
      rfl
    · rw [splitCRLF, if_neg h]
      have hmid : c₂ :: (r ++ '\r' :: '\n' :: t) = (c₂ :: r) ++ '\r' :: '\n' :: t := rfl
      rw [hmid, splitSeam (c₂ :: r) t,
        modifyHead_append _ _ _ (splitCRLF_ne_nil (c₂ :: r)),
        splitCRLF, if_neg h]

theorem singleSeg (l : List Char) (h : hasCRLF l = false) : splitCRLF l = [l] := by
  match l with
  | [] => rfl
  | [c] => rfl
  | c₁ :: c₂ :: r =>
    rw [hasCRLF] at h
    have h1 : ¬ (c₁ = '\r' ∧ c₂ = '\n') := by
      intro hc
      simp [hc.1, hc.2] at h
    have h2 : hasCRLF (c₂ :: r) = false := by
      rcases Bool.or_eq_false_iff.mp h with ⟨_, h2⟩
      exact h2
    rw [splitCRLF, if_neg h1, singleSeg (c₂ :: r) h2]
    rfl

theorem hasCRLF_eq_false (l : List Char) (h : '\r' ∉ l) : hasCRLF l = false := by
  match l with
  | [] => rfl
  | [c] => rfl
  | c₁ :: c₂ :: r =>
    have h1 : c₁ ≠ '\r' := fun he => h (he ▸ List.mem_cons_self _ _)
    have h2 : '\r' ∉ c₂ :: r := fun hm => h (List.mem_cons_of_mem _ hm)
    rw [hasCRLF, hasCRLF_eq_false (c₂ :: r) h2]
    simp [h1]

theorem lineSeam (l : List Char) (hl : hasCRLF l = false) (t : List Char) :
    splitCRLF (l ++ '\r' :: '\n' :: t) = l :: splitCRLF t := by
  rw [splitSeam, singleSeg l hl]
  rfl

/-! ## Decomposition of assembled messages into lines -/

theorem headerChunk_lines (order : List (String × String))
    (hv : ∀ kv ∈ order, hasCRLF (hdrLineStr kv).data = false) (t : List Char) :
    splitCRLF ((headerChunk order).data ++ t)
      = order.map (fun kv => (hdrLineStr kv).data) ++ splitCRLF t := by
  induction order with
  | nil => simp [headerChunk, concatStr]
  | cons kv rest ih =>
    have hkv := hv kv (List.mem_cons_self _ _)
    have hrest : ∀ kv2 ∈ rest, hasCRLF (hdrLineStr kv2).data = false :=
      fun kv2 hm => hv kv2 (List.mem_cons_of_mem _ hm)
    have hdata : (headerChunk (kv :: rest)).data ++ t
        = (hdrLineStr kv).data ++ '\r' :: '\n' :: ((headerChunk rest).data ++ t) := by
      simp [headerChunk, concatStr, strData_append]
    rw [hdata, lineSeam _ hkv, ih hrest]
    rfl

def partLinesOf (boundary : String) (b : Body) : List (List Char) :=
  (("--") ++ boundary).data :: (partCtLine b).data :: splitCRLF b.Data.data

theorem partChunk_lines (boundary : String) (b : Body)
    (hb : hasCRLF (("--") ++ boundary).data = false)
    (hc : hasCRLF (partCtLine b).data = false) (t : List Char) :
    splitCRLF ((partChunk boundary b).data ++ t)
      = partLinesOf boundary b ++ splitCRLF t := by
  have hdata : (partChunk boundary b).data ++ t
      = (("--") ++ boundary).data
        ++ '\r' :: '\n' :: ((partCtLine b).data
        ++ '\r' :: '\n' :: (b.Data.data ++ '\r' :: '\n' :: t)) := by
    simp [partChunk, strData_append]
  rw [hdata, lineSeam _ hb, lineSeam _ hc, splitSeam]
  simp [partLinesOf]

theorem parts_lines (boundary : String) (bodies : List Body)
    (hb : hasCRLF (("--") ++ boundary).data = false)
    (hc : ∀ b ∈ bodies, hasCRLF (partCtLine b).data = false) (t : List Char) :
    splitCRLF ((concatStr (bodies.map (partChunk boundary))).data ++ t)
      = concatL (bodies.map (partLinesOf boundary)) ++ splitCRLF t := by
  induction bodies with
  | nil => simp [concatStr, concatL]
  | cons b rest ih =>
    have hcb := hc b (List.mem_cons_self _ _)
    have hcrest : ∀ b2 ∈ rest, hasCRLF (partCtLine b2).data = false :=
      fun b2 hm => hc b2 (List.mem_cons_of_mem _ hm)
    have hdata : (concatStr ((b :: rest).map (partChunk boundary))).data ++ t
        = (partChunk boundary b).data
          ++ ((concatStr (rest.map (partChunk boundary))).data ++ t) := by
      simp [concatStr, strData_append]
    rw [hdata, partChunk_lines boundary b hb hcb, ih hcrest]
    simp [concatL]

theorem assemble_lines_multi (order : List (String × String)) (bodies : List Body)
    (boundary : String) (hN : 1 < bodies.length)
    (hhdr : ∀ kv ∈ order, hasCRLF (hdrLineStr kv).data = false)
    (hb : hasCRLF (("--") ++ boundary).data = false)
    (hmp : hasCRLF (mpCtLine boundary).data = false)
    (hterm : hasCRLF (("--") ++ boundary ++ ("--")).data = false)
    (hc : ∀ b ∈ bodies, hasCRLF (partCtLine b).data = false) :
    splitCRLF (assembleMsg order bodies boundary).data
      = order.map (fun kv => (hdrLineStr kv).data)
        ++ (mpCtLine boundary).data :: (concatL (bodies.map (partLinesOf boundary))
        ++ [(("--") ++ boundary ++ ("--")).data, []]) := by
  have hdata : (assembleMsg order bodies boundary).data
      = (headerChunk order).data
        ++ ((mpCtLine boundary).data
        ++ '\r' :: '\n' :: ((concatStr (bodies.map (partChunk boundary))).data
        ++ ((("--") ++ boundary ++ ("--")).data ++ ['\r', '\n']))) := by
    simp [assembleMsg, mpHeader, mpTerm, hN, strData_append]
  rw [hdata, headerChunk_lines order hhdr, lineSeam _ hmp]
  have hrw : (("--") ++ boundary ++ ("--")).data ++ ['\r', '\n']
      = (("--") ++ boundary ++ ("--")).data ++ '\r' :: '\n' :: ([] : List Char) := rfl
  rw [hrw, parts_lines boundary bodies hb hc, lineSeam _ hterm]
  rfl

theorem assemble_lines_single (order : List (String × String)) (b : Body)
    (boundary : String)
    (hhdr : ∀ kv ∈ order, hasCRLF (hdrLineStr kv).data = false)
    (hc : hasCRLF (partCtLine b).data = false) :
    splitCRLF (assembleMsg order [b] boundary).data
      = order.map (fun kv => (hdrLineStr kv).data)
        ++ (partCtLine b).data :: (splitCRLF b.Data.data ++ [[]]) := by
  have hdata : (assembleMsg order [b] boundary).data
      = (headerChunk order).data
        ++ ((partCtLine b).data ++ '\r' :: '\n' :: (b.Data.data ++ '\r' :: '\n' :: [])) := by
    simp [assembleMsg, mpHeader, mpTerm, concatStr, singleChunk, strData_append]
  rw [hdata, headerChunk_lines order hhdr, lineSeam _ hc, splitSeam]
  rfl

theorem assemble_lines_empty (order : List (String × String)) (boundary : String)
    (hhdr : ∀ kv ∈ order, hasCRLF (hdrLineStr kv).data = false) :
    splitCRLF (assembleMsg order [] boundary).data
      = order.map (fun kv => (hdrLineStr kv).data) ++ [[]] := by
  have hdata : (assembleMsg order [] boundary).data = (headerChunk order).data ++ [] := by
    simp [assembleMsg, mpHeader, mpTerm, concatStr, strData_append]
  rw [hdata, headerChunk_lines order hhdr]
  rfl

/-! ## Character facts: boundary alphabet, header-line heads -/

def isBoundaryChar (c : Char) : Bool :=
  (('0' ≤ c && c ≤ '9') || ('a' ≤ c && c ≤ 'z'))

theorem boundaryCharset_ok : ∀ c ∈ boundaryCharset, isBoundaryChar c = true := by decide

theorem genBoundary_length (r : Nat → Fin 36) : (genBoundary r).length = 32 := by
  simp [genBoundary, String.length]

theorem genBoundary_chars (r : Nat → Fin 36) :
    ∀ c ∈ (genBoundary r).data, isBoundaryChar c = true := by
  intro c hc
  simp only [genBoundary, String.mk, List.mem_map, List.mem_range] at hc
  obtain ⟨i, _, hi⟩ := hc
  have hlen : boundaryCharset.length = 36 := rfl
  have hlt : (r i).val < boundaryCharset.length := by rw [hlen]; exact (r i).isLt
  rw [← hi, List.getD_eq_getElem _ _ hlt]
  exact boundaryCharset_ok _ (List.getElem_mem hlt)

theorem genBoundary_noCR (r : Nat → Fin 36) : '\r' ∉ (genBoundary r).data := by
  intro hm
  have hch := genBoundary_chars r _ hm
  exact absurd hch (by decide)

theorem hdrLine_data (kv : String × String) :
    (hdrLineStr kv).data = kv.1.data ++ [':', ' '] ++ kv.2.data := rfl

theorem mem_headerPairs_key (h : Header) (order : List (String × String))
    (hord : order.Perm (headerPairs h)) (kv : String × String) (hkv : kv ∈ order) :
    kv.1 = ("From") ∨ kv.1 = ("To") ∨ kv.1 = ("Subject") ∨ kv.1 = ("MIME-version") := by
  have hmem : kv ∈ headerPairs h := hord.mem_iff.mp hkv
  simp only [headerPairs, List.mem_cons, List.not_mem_nil, or_false] at hmem
  rcases hmem with h1 | h1 | h1 | h1 <;> subst h1 <;> simp

theorem hdrLine_head (h : Header) (order : List (String × String))
    (hord : order.Perm (headerPairs h)) (kv : String × String) (hkv : kv ∈ order) :
    ∃ c tl, (hdrLineStr kv).data = c :: tl
      ∧ (c = 'F' ∨ c = 'T' ∨ c = 'S' ∨ c = 'M') := by
  have hk := mem_headerPairs_key h order hord kv hkv
  rcases hk with hk | hk | hk | hk
  · exact ⟨'F', ("rom").data ++ [':', ' '] ++ kv.2.data,
      by rw [hdrLine_data, hk]; rfl, Or.inl rfl⟩
  · exact ⟨'T', ("o").data ++ [':', ' '] ++ kv.2.data,
      by rw [hdrLine_data, hk]; rfl, Or.inr (Or.inl rfl)⟩
  · exact ⟨'S', ("ubject").data ++ [':', ' '] ++ kv.2.data,
      by rw [hdrLine_data, hk]; rfl, Or.inr (Or.inr (Or.inl rfl))⟩
  · exact ⟨'M', ("IME-version").data ++ [':', ' '] ++ kv.2.data,
      by rw [hdrLine_data, hk]; rfl, Or.inr (Or.inr (Or.inr rfl))⟩

theorem hdrLine_noCRLF (h : Header) (order : List (String × String))
    (hord : order.Perm (headerPairs h))
    (hvals : ∀ kv ∈ order, '\r' ∉ kv.2.data) :
    ∀ kv ∈ order, hasCRLF (hdrLineStr kv).data = false := by
  intro kv hkv
  apply hasCRLF_eq_false
  rw [hdrLine_data]
  intro hm
  rcases List.mem_append.mp hm with hm1 | hm1
  · rcases List.mem_append.mp hm1 with hm2 | hm2
    · have hk := mem_headerPairs_key h order hord kv hkv
      rcases hk with hk | hk | hk | hk <;> rw [hk] at hm2 <;> exact absurd hm2 (by decide)
    · exact absurd hm2 (by decide)
  · exact hvals kv hkv hm1

theorem dashLine_noCRLF (bnd : String) (hb : '\r' ∉ bnd.data) :
    hasCRLF (("--") ++ bnd).data = false := by
  apply hasCRLF_eq_false
  rw [show (("--") ++ bnd).data = ['-', '-'] ++ bnd.data from rfl]
  intro hm
  rcases List.mem_append.mp hm with hm1 | hm1
  · exact absurd hm1 (by decide)
  · exact hb hm1

theorem termLine_noCRLF (bnd : String) (hb : '\r' ∉ bnd.data) :
    hasCRLF (("--") ++ bnd ++ ("--")).data = false := by
  apply hasCRLF_eq_false
  rw [show (("--") ++ bnd ++ ("--")).data = ['-', '-'] ++ bnd.data ++ ['-', '-'] from rfl]
  intro hm
  rcases List.mem_append.mp hm with hm1 | hm1
  · rcases List.mem_append.mp hm1 with hm2 | hm2
    · exact absurd hm2 (by decide)
    · exact hb hm2
  · exact absurd hm1 (by decide)

theorem mpCtLine_noCRLF (bnd : String) (hb : '\r' ∉ bnd.data) :
    hasCRLF (mpCtLine bnd).data = false := by
  apply hasCRLF_eq_false
  rw [show (mpCtLine bnd).data = ("Content-Type: multipart/alternative; boundary=\"").data
        ++ bnd.data ++ [Char.ofNat 34] from rfl]
  intro hm
  rcases List.mem_append.mp hm with hm1 | hm1
  · rcases List.mem_append.mp hm1 with hm2 | hm2
    · exact absurd hm2 (by decide)
    · exact hb hm2
  · exact absurd hm1 (by decide)

theorem partCtLine_noCRLF (b : Body) (hct : '\r' ∉ b.ContentType.data)
    (hcs : '\r' ∉ b.Charset.data) : hasCRLF (partCtLine b).data = false := by
  apply hasCRLF_eq_false
  rw [show (partCtLine b).data = ("Content-Type: ").data ++ b.ContentType.data
        ++ ("; charset=\"").data ++ b.Charset.data ++ [Char.ofNat 34] from rfl]
  intro hm
  rcases List.mem_append.mp hm with hm1 | hm1
  · rcases List.mem_append.mp hm1 with hm2 | hm2
    · rcases List.mem_append.mp hm2 with hm3 | hm3
      · rcases List.mem_append.mp hm3 with hm4 | hm4
        · exact absurd hm4 (by decide)
        · exact hct hm4
      · exact absurd hm3 (by decide)
    · exact hcs hm2
  · exact absurd hm1 (by decide)

theorem partCtLine_head (b : Body) :
    (partCtLine b).data = 'C' :: (("ontent-Type: ").data ++ b.ContentType.data
      ++ ("; charset=\"").data ++ b.Charset.data ++ [Char.ofNat 34]) := rfl

theorem mpCtLine_head (bnd : String) :
    (mpCtLine bnd).data = 'C' :: (("ontent-Type: multipart/alternative; boundary=\"").data
      ++ bnd.data ++ [Char.ofNat 34]) := rfl

theorem dashLine_head (bnd : String) :
    (("--") ++ bnd).data = '-' :: '-' :: bnd.data := rfl

theorem termLine_head (bnd : String) :
    (("--") ++ bnd ++ ("--")).data = ('-' :: '-' :: bnd.data) ++ ['-', '-'] := rfl

theorem dash_ne_term (bnd : String) :
    (("--") ++ bnd).data ≠ (("--") ++ bnd ++ ("--")).data := by
  intro he
  rw [dashLine_head, termLine_head] at he
  have hlen := congrArg List.length he
  simp at hlen

theorem cons_ne_cons (c d : Char) (l m : List Char) (h : c ≠ d) : c :: l ≠ d :: m := by
  intro he
  injection he with h1 _
  exact h h1

theorem flat_count (boundary : String) (bodies : List Body)
    (hdata : ∀ b ∈ bodies, ∀ l ∈ splitCRLF b.Data.data,
      l ≠ (("--") ++ boundary).data ∧ l ≠ (("--") ++ boundary ++ ("--")).data) :
    (concatL (bodies.map (partLinesOf boundary))).count ((("--") ++ boundary).data)
        = bodies.length
    ∧ (concatL (bodies.map (partLinesOf boundary))).count
        ((("--") ++ boundary ++ ("--")).data) = 0 := by
  induction bodies with
  | nil => exact ⟨rfl, rfl⟩
  | cons b rest ih =>
    have hb := hdata b (List.mem_cons_self _ _)
    have hrest : ∀ b2 ∈ rest, ∀ l ∈ splitCRLF b2.Data.data,
        l ≠ (("--") ++ boundary).data ∧ l ≠ (("--") ++ boundary ++ ("--")).data :=
      fun b2 hm => hdata b2 (List.mem_cons_of_mem _ hm)
    obtain ⟨ih1, ih2⟩ := ih hrest
    have hsplit : concatL ((b :: rest).map (partLinesOf boundary))
        = partLinesOf boundary b ++ concatL (rest.map (partLinesOf boundary)) := rfl
    have hpl_ne_ctl : (("--") ++ boundary).data ≠ (partCtLine b).data := by
      rw [dashLine_head, partCtLine_head]
      exact cons_ne_cons _ _ _ _ (by decide)
    have hterm_ne_pl : (("--") ++ boundary ++ ("--")).data ≠ (("--") ++ boundary).data :=
      fun he => dash_ne_term boundary he.symm
    have hterm_ne_ctl : (("--") ++ boundary ++ ("--")).data ≠ (partCtLine b).data := by
      rw [termLine_head, partCtLine_head]
      exact cons_ne_cons _ _ _ _ (by decide)
    have hdataPl : (splitCRLF b.Data.data).count ((("--") ++ boundary).data) = 0 :=
      List.count_eq_zero.mpr (fun hm => (hb _ hm).1 rfl)
    have hdataTerm : (splitCRLF b.Data.data).count
        ((("--") ++ boundary ++ ("--")).data) = 0 :=
      List.count_eq_zero.mpr (fun hm => (hb _ hm).2 rfl)
    constructor
    · rw [hsplit, List.count_append, ih1, partLinesOf, List.count_cons_self,
        List.count_cons_of_ne hpl_ne_ctl, hdataPl]
      simp [List.length_cons]
      omega
    · rw [hsplit, List.count_append, ih2, partLinesOf,
        List.count_cons_of_ne (fun he => dash_ne_term boundary he.symm),
        List.count_cons_of_ne hterm_ne_ctl, hdataTerm]

/-! ## Claim theorems -/

/-- C1: for every Params whose Body list has N ≥ 2 elements (with CR-free
header values and part parameters, and body data containing no line that
collides with the generated boundary markers), the message assembled by
Send contains exactly N part-boundary lines `--boundary`, exactly one
terminating `--boundary--` line, preceded by one
`Content-Type: multipart/alternative; boundary="..."` header line, and the
generated boundary token is exactly 32 characters drawn from `[0-9a-z]`. -/
theorem claim_C1 (h : Header) (order : List (String × String)) (bodies : List Body)
    (r : Nat → Fin 36)
    (hord : order.Perm (headerPairs h))
    (hvals : ∀ kv ∈ order, '\r' ∉ kv.2.data)
    (hN : 2 ≤ bodies.length)
    (hcc : ∀ b ∈ bodies, '\r' ∉ b.ContentType.data ∧ '\r' ∉ b.Charset.data)
    (hdata : ∀ b ∈ bodies, ∀ l ∈ splitCRLF b.Data.data,
      l ≠ (("--") ++ genBoundary r).data ∧ l ≠ (("--") ++ genBoundary r ++ ("--")).data) :
    ((splitCRLF (assembleMsg order bodies (genBoundary r)).data).count
        ((("--") ++ genBoundary r).data) = bodies.length)
    ∧ ((splitCRLF (assembleMsg order bodies (genBoundary r)).data).count
        ((("--") ++ genBoundary r ++ ("--")).data) = 1)
    ∧ (∃ rest, splitCRLF (assembleMsg order bodies (genBoundary r)).data
        = order.map (fun kv => (hdrLineStr kv).data)
          ++ (mpCtLine (genBoundary r)).data :: rest)
    ∧ (genBoundary r).length = 32
    ∧ (∀ c ∈ (genBoundary r).data, isBoundaryChar c = true) := by
  have hbnd : '\r' ∉ (genBoundary r).data := genBoundary_noCR r
  have hhdr := hdrLine_noCRLF h order hord hvals
  have hN1 : 1 < bodies.length := by omega
  have hdecomp := assemble_lines_multi order bodies (genBoundary r) hN1 hhdr
    (dashLine_noCRLF _ hbnd) (mpCtLine_noCRLF _ hbnd) (termLine_noCRLF _ hbnd)
    (fun b hm => partCtLine_noCRLF b (hcc b hm).1 (hcc b hm).2)
  have hhdr_no : ∀ x : List Char, x.head? = some '-' →
      (order.map (fun kv => (hdrLineStr kv).data)).count x = 0 := by
    intro x hx
    apply List.count_eq_zero.mpr
    intro hm
    obtain ⟨kv, hkv, heq⟩ := List.mem_map.mp hm
    obtain ⟨c, tl, hdataEq, hcs⟩ := hdrLine_head h order hord kv hkv
    rw [heq] at hdataEq
    rw [hdataEq] at hx
    simp at hx
    rcases hcs with hc | hc | hc | hc <;> rw [hc] at hx <;> exact absurd hx (by decide)
  have hplHead : (("--") ++ genBoundary r).data.head? = some '-' := by
    rw [dashLine_head]
    rfl
  have htermHead : (("--") ++ genBoundary r ++ ("--")).data.head? = some '-' := by
    rw [termLine_head]
    rfl
  have hpl_ne_mp : (("--") ++ genBoundary r).data ≠ (mpCtLine (genBoundary r)).data := by
    rw [dashLine_head, mpCtLine_head]
    exact cons_ne_cons _ _ _ _ (by decide)
  have hterm_ne_mp : (("--") ++ genBoundary r ++ ("--")).data
      ≠ (mpCtLine (genBoundary r)).data := by
    rw [termLine_head, mpCtLine_head]
    exact cons_ne_cons _ _ _ _ (by decide)
  have hpl_ne_nil : (("--") ++ genBoundary r).data ≠ ([] : List Char) := by
    rw [dashLine_head]
    exact List.cons_ne_nil _ _
  have hterm_ne_nil : (("--") ++ genBoundary r ++ ("--")).data ≠ ([] : List Char) := by
    rw [termLine_head]
    exact List.cons_ne_nil _ _
  obtain ⟨hflat1, hflat2⟩ := flat_count (genBoundary r) bodies hdata
  refine ⟨?_, ?_, ⟨_, hdecomp⟩, genBoundary_length r, genBoundary_chars r⟩
  · rw [hdecomp, List.count_append, hhdr_no _ hplHead,
      List.count_cons_of_ne hpl_ne_mp, List.count_append, hflat1,
      List.count_cons_of_ne (dash_ne_term (genBoundary r)),
      List.count_cons_of_ne hpl_ne_nil]
    simp
  · rw [hdecomp, List.count_append, hhdr_no _ htermHead,
      List.count_cons_of_ne hterm_ne_mp, List.count_append, hflat2,
      List.count_cons_self, List.count_cons_of_ne hterm_ne_nil]
    simp

def hW : Header :=
  { From := ("a@x.com"), MimeVersion := ("1.0"), Subject := ("Hi"), To := ("b@y.com") }

def rW : Nat → Fin 36 := fun _ => ⟨0, by decide⟩

def bodiesW : List Body :=
  [{ ContentType := ("text/plain"), Charset := ("UTF-8"), Data := ("Hi") },
   { ContentType := ("text/html"), Charset := ("UTF-8"), Data := ("<b>Hi</b>") }]

/-- C1 witness: the multipart property instantiated on a concrete header,
two concrete bodies and a concrete random stream. -/
theorem claim_C1_witness :
    ((headerPairs hW).Perm (headerPairs hW)
      ∧ (∀ kv ∈ headerPairs hW, '\r' ∉ kv.2.data)
      ∧ 2 ≤ bodiesW.length
      ∧ (∀ b ∈ bodiesW, '\r' ∉ b.ContentType.data ∧ '\r' ∉ b.Charset.data)
      ∧ (∀ b ∈ bodiesW, ∀ l ∈ splitCRLF b.Data.data,
          l ≠ (("--") ++ genBoundary rW).data
            ∧ l ≠ (("--") ++ genBoundary rW ++ ("--")).data))
    ∧ (splitCRLF (assembleMsg (headerPairs hW) bodiesW (genBoundary rW)).data).count
        ((("--") ++ genBoundary rW).data) = bodiesW.length :=
  ⟨⟨List.Perm.refl _, by decide, by decide, by decide, by decide⟩,
    (claim_C1 hW (headerPairs hW) bodiesW rW (List.Perm.refl _) (by decide) (by decide)
      (by decide) (by decide)).1⟩

theorem concatStr_data (ss : List String) :
    (concatStr ss).data = concatL (ss.map String.data) := by
  induction ss with
  | nil => rfl
  | cons s rest ih => simp [concatStr, concatL, strData_append, ih]

theorem concatL_split {α : Type} (g : α → List Char) (l : List α) (j : Nat)
    (hj : j < l.length) :
    concatL (l.map g) = concatL ((l.take j).map g) ++ g (l.get ⟨j, hj⟩)
      ++ concatL ((l.drop (j + 1)).map g) := by
  induction l generalizing j with
  | nil => simp at hj
  | cons x xs ih =>
    cases j with
    | zero => simp [concatL]
    | succ j2 =>
      have hj2 : j2 < xs.length := by simpa using hj
      simp only [List.take_succ_cons, List.drop_succ_cons, List.map_cons, concatL,
        List.get_cons_succ]
      rw [ih j2 hj2]
      simp [List.append_assoc]

theorem concatL_split2 {α : Type} (g : α → List Char) (l : List α) (i j : Nat)
    (hij : i < j) (hj : j < l.length) :
    ∃ A B C, concatL (l.map g)
      = A ++ g (l.get ⟨i, by omega⟩) ++ B ++ g (l.get ⟨j, hj⟩) ++ C := by
  induction l generalizing i j with
  | nil => simp at hj
  | cons x xs ih =>
    cases i with
    | zero =>
      cases j with
      | zero => omega
      | succ j2 =>
        have hj2 : j2 < xs.length := by simpa using hj
        refine ⟨[], concatL ((xs.take j2).map g), concatL ((xs.drop (j2 + 1)).map g), ?_⟩
        simp only [List.map_cons, concatL, List.get_cons_succ, List.get_cons_zero]
        rw [concatL_split g xs j2 hj2]
        simp [List.append_assoc]
    | succ i2 =>
      cases j with
      | zero => omega
      | succ j2 =>
        have hij2 : i2 < j2 := by omega
        have hj2 : j2 < xs.length := by simpa using hj
        obtain ⟨A, B, C, hABC⟩ := ih i2 j2 hij2 hj2
        refine ⟨g x ++ A, B, C, ?_⟩
        simp only [List.map_cons, concatL, List.get_cons_succ]
        rw [hABC]
        simp [List.append_assoc]

/-- C2: with two or more Bodies, the serialized parts appear in exactly the
caller-given order: for i < j the i-th part precedes the j-th part in the
assembled byte stream, and the part of the last Body appears last,
immediately before the closing boundary line. -/
theorem claim_C2 (order : List (String × String)) (bodies : List Body) (boundary : String)
    (hN : 2 ≤ bodies.length) (hne : bodies ≠ []) :
    (∀ i j, ∀ hij : i < j, ∀ hj : j < bodies.length,
      ∃ A B C, (assembleMsg order bodies boundary).data
        = A ++ (partChunk boundary (bodies.get ⟨i, by omega⟩)).data
          ++ B ++ (partChunk boundary (bodies.get ⟨j, hj⟩)).data ++ C)
    ∧ (∃ A, (assembleMsg order bodies boundary).data
        = A ++ (partChunk boundary (bodies.getLast hne)).data
          ++ (("--") ++ boundary ++ ("--\r\n")).data) := by
  have hN1 : 1 < bodies.length := by omega
  have hfun : bodies.map (fun b =>
        if 1 < bodies.length then partChunk boundary b else singleChunk b)
      = bodies.map (partChunk boundary) :=
    List.map_congr_left (fun b _ => if_pos hN1)
  have hmsg : assembleMsg order bodies boundary
      = headerChunk order ++ (mpCtLine boundary ++ ("\r\n"))
        ++ concatStr (bodies.map (partChunk boundary))
        ++ (("--") ++ boundary ++ ("--\r\n")) := by
    rw [assembleMsg, mpHeader, mpTerm, if_pos hN1, if_pos hN1, hfun]
  constructor
  · intro i j hij hj
    obtain ⟨A, B, C, hABC⟩ :=
      concatL_split2 (fun b => (partChunk boundary b).data) bodies i j hij hj
    refine ⟨(headerChunk order ++ (mpCtLine boundary ++ ("\r\n"))).data ++ A, B,
      C ++ (("--") ++ boundary ++ ("--\r\n")).data, ?_⟩
    rw [hmsg]
    simp only [strData_append, concatStr_data, List.map_map]
    rw [show String.data ∘ partChunk boundary = (fun b => (partChunk boundary b).data)
      from rfl, hABC]
    simp [List.append_assoc]
  · have hlast : bodies.getLast hne = bodies.get ⟨bodies.length - 1, by omega⟩ := by
      rw [List.getLast_eq_getElem]
      simp
    have hsplit := concatL_split (fun b => (partChunk boundary b).data) bodies
      (bodies.length - 1) (by omega)
    have hdrop : bodies.drop (bodies.length - 1 + 1) = [] := by
      rw [show bodies.length - 1 + 1 = bodies.length from by omega, List.drop_length]
    rw [hdrop] at hsplit
    refine ⟨(headerChunk order ++ (mpCtLine boundary ++ ("\r\n"))).data
      ++ concatL ((bodies.take (bodies.length - 1)).map
          (fun b => (partChunk boundary b).data)), ?_⟩
    rw [hmsg, hlast]
    simp only [strData_append, concatStr_data, List.map_map]
    rw [show String.data ∘ partChunk boundary = (fun b => (partChunk boundary b).data)
      from rfl, hsplit]
    simp [concatL, List.append_assoc, List.map_take]

/-- C2 witness: part order instantiated on two concrete bodies at indices
0 and 1. -/
theorem claim_C2_witness :
    (2 ≤ bodiesW.length ∧ bodiesW ≠ [] ∧ (0 : Nat) < 1 ∧ 1 < bodiesW.length)
    ∧ (∃ A B C, (assembleMsg (headerPairs hW) bodiesW (genBoundary rW)).data
        = A ++ (partChunk (genBoundary rW) (bodiesW.get ⟨0, by decide⟩)).data
          ++ B ++ (partChunk (genBoundary rW) (bodiesW.get ⟨1, by decide⟩)).data ++ C) :=
  ⟨⟨by decide, by decide, by decide, by decide⟩,
    (claim_C2 (headerPairs hW) bodiesW (genBoundary rW) (by decide) (by decide)).1 0 1
      (by decide) (by decide)⟩

theorem strExt (a b : String) (h : a.data = b.data) : a = b := congrArg String.mk h

def ctPfxChars : List Char := ("Content-Type:").data

def dashdash : List Char := ['-', '-']

theorem isPrefixOf_append_self (p l : List Char) : p.isPrefixOf (p ++ l) = true := by
  induction p with
  | nil => simp [List.isPrefixOf]
  | cons c cs ih => simp [List.isPrefixOf, ih]

theorem isPrefixOf_of_eq_append (p l r : List Char) (h : l = p ++ r) :
    p.isPrefixOf l = true := h ▸ isPrefixOf_append_self p r

theorem isPrefixOf_false_of_head (c d : Char) (p l : List Char) (h : c ≠ d) :
    ((c :: p).isPrefixOf (d :: l)) = false := by
  show (c == d && p.isPrefixOf l) = false
  rw [beq_eq_false_iff_ne.mpr h, Bool.false_and]

theorem hdrLines_countP_zero (h : Header) (order : List (String × String))
    (hord : order.Perm (headerPairs h)) (c0 : Char) (p0 : List Char)
    (hF : c0 ≠ 'F') (hT : c0 ≠ 'T') (hS : c0 ≠ 'S') (hM : c0 ≠ 'M') :
    (order.map (fun kv => (hdrLineStr kv).data)).countP
      (fun l => (c0 :: p0).isPrefixOf l) = 0 := by
  apply List.countP_eq_zero.mpr
  intro l hm
  obtain ⟨kv, hkv, heq⟩ := List.mem_map.mp hm
  obtain ⟨c, tl, hEq, hcs⟩ := hdrLine_head h order hord kv hkv
  rw [← heq, hEq]
  have hne : c0 ≠ c := by rcases hcs with hc | hc | hc | hc <;> rw [hc] <;> assumption
  simp [isPrefixOf_false_of_head c0 c p0 tl hne]

/-- C3: for a Body list with exactly one element, the assembled message is
the header lines followed by a single `Content-Type: <type>;
charset="<charset>"` line, the raw data, and a trailing CRLF, with no
boundary markers and exactly one Content-Type line (side conditions only
exclude CR-containing header values and type/charset fields, and body data
whose own lines look like Content-Type or boundary lines). -/
theorem claim_C3 (h : Header) (order : List (String × String)) (b : Body)
    (boundary : String)
    (hord : order.Perm (headerPairs h))
    (hvals : ∀ kv ∈ order, '\r' ∉ kv.2.data)
    (hct : '\r' ∉ b.ContentType.data) (hcs : '\r' ∉ b.Charset.data)
    (hdata : ∀ l ∈ splitCRLF b.Data.data,
      (ctPfxChars.isPrefixOf l) = false ∧ (dashdash.isPrefixOf l) = false) :
    assembleMsg order [b] boundary
      = headerChunk order ++ (("Content-Type: ") ++ b.ContentType ++ ("; charset=\"")
        ++ b.Charset ++ ("\"") ++ ("\r\n") ++ b.Data ++ ("\r\n"))
    ∧ (splitCRLF (assembleMsg order [b] boundary).data).countP
        (fun l => ctPfxChars.isPrefixOf l) = 1
    ∧ (splitCRLF (assembleMsg order [b] boundary).data).countP
        (fun l => dashdash.isPrefixOf l) = 0 := by
  have hhdr := hdrLine_noCRLF h order hord hvals
  have hcl := partCtLine_noCRLF b hct hcs
  have hlines := assemble_lines_single order b boundary hhdr hcl
  have hctlPfx : (ctPfxChars.isPrefixOf (partCtLine b).data) = true :=
    isPrefixOf_of_eq_append ctPfxChars (partCtLine b).data
      (' ' :: (((b.ContentType.data ++ ("; charset=\"").data) ++ b.Charset.data)
        ++ ("\"").data)) rfl
  have hctlDash : (dashdash.isPrefixOf (partCtLine b).data) = false := by
    rw [partCtLine_head]
    exact isPrefixOf_false_of_head '-' 'C' _ _ (by decide)
  have hdataCt : (splitCRLF b.Data.data).countP (fun l => ctPfxChars.isPrefixOf l) = 0 :=
    List.countP_eq_zero.mpr (fun l hm => by simp [(hdata l hm).1])
  have hdataDash : (splitCRLF b.Data.data).countP (fun l => dashdash.isPrefixOf l) = 0 :=
    List.countP_eq_zero.mpr (fun l hm => by simp [(hdata l hm).2])
  refine ⟨?_, ?_, ?_⟩
  · apply strExt
    simp [assembleMsg, mpHeader, mpTerm, concatStr, singleChunk, partCtLine,
      strData_append, List.append_assoc]
  · have h1 : (order.map (fun kv => (hdrLineStr kv).data)).countP
        (fun l => ctPfxChars.isPrefixOf l) = 0 :=
      hdrLines_countP_zero h order hord 'C' (("ontent-Type:").data)
        (by decide) (by decide) (by decide) (by decide)
    rw [hlines, List.countP_append, h1,
      List.countP_cons_of_pos _ _ (by simpa using hctlPfx),
      List.countP_append, hdataCt]
    rfl
  · have h2 : (order.map (fun kv => (hdrLineStr kv).data)).countP
        (fun l => dashdash.isPrefixOf l) = 0 :=
      hdrLines_countP_zero h order hord '-' (['-'])
        (by decide) (by decide) (by decide) (by decide)
    rw [hlines, List.countP_append, h2,
      List.countP_cons_of_neg _ _ (by intro hcontra; simp [hctlDash] at hcontra),
      List.countP_append, hdataDash]
    rfl

def bW3 : Body := { ContentType := ("text/plain"), Charset := ("UTF-8"), Data := ("Hello") }

/-- C3 witness: the single-body property instantiated on a concrete header
and body. -/
theorem claim_C3_witness :
    ((headerPairs hW).Perm (headerPairs hW)
      ∧ (∀ kv ∈ headerPairs hW, '\r' ∉ kv.2.data)
      ∧ '\r' ∉ bW3.ContentType.data ∧ '\r' ∉ bW3.Charset.data
      ∧ (∀ l ∈ splitCRLF bW3.Data.data,
          (ctPfxChars.isPrefixOf l) = false ∧ (dashdash.isPrefixOf l) = false))
    ∧ (splitCRLF (assembleMsg (headerPairs hW) [bW3] (genBoundary rW)).data).countP
        (fun l => ctPfxChars.isPrefixOf l) = 1 :=
  ⟨⟨List.Perm.refl _, by decide, by decide, by decide, by decide⟩,
    (claim_C3 hW (headerPairs hW) bW3 (genBoundary rW) (List.Perm.refl _) (by decide)
      (by decide) (by decide) (by decide)).2.1⟩

/-- C9: an empty Body list is not rejected: the assembled message is the
header lines only (no Content-Type line, no boundary markers), and Send
runs the complete SMTP session on that bodiless message. -/
theorem claim_C9 (p : Params) (order : List (String × String)) (r : Nat → Fin 36)
    (net : Network)
    (hbody : p.Body = [])
    (hord : order.Perm (headerPairs p.Header))
    (hvals : ∀ kv ∈ order, '\r' ∉ kv.2.data)
    (htls : p.TlsConfig = none)
    (hauth : p.AuthConfig = none)
    (hdial : ∀ s, net.plainDial s = .ok ())
    (hmail : ∀ s, net.mail s = .ok ())
    (hrcpt : ∀ s, net.rcpt s = .ok ())
    (hopen : net.dataOpen = .ok ())
    (hwrite : ∀ s, net.dataWrite s = .ok ())
    (hclose : net.dataClose = .ok ())
    (hquit : net.quit = .ok ()) :
    assembleMsg order p.Body (genBoundary r) = headerChunk order
    ∧ splitCRLF (assembleMsg order p.Body (genBoundary r)).data
        = order.map (fun kv => (hdrLineStr kv).data) ++ [[]]
    ∧ (splitCRLF (assembleMsg order p.Body (genBoundary r)).data).countP
        (fun l => ctPfxChars.isPrefixOf l) = 0
    ∧ (splitCRLF (assembleMsg order p.Body (genBoundary r)).data).countP
        (fun l => dashdash.isPrefixOf l) = 0
    ∧ Send p order r net
        = ([SmtpOp.plainDial, SmtpOp.mail, SmtpOp.rcpt, SmtpOp.dataOpen,
            SmtpOp.dataWrite, SmtpOp.dataClose, SmtpOp.quit], .ok ()) := by
  have hhdr := hdrLine_noCRLF p.Header order hord hvals
  have hlines := assemble_lines_empty order (genBoundary r) hhdr
  refine ⟨?_, ?_, ?_, ?_, ?_⟩
  · apply strExt
    rw [hbody]
    simp [assembleMsg, mpHeader, mpTerm, concatStr, strData_append]
  · rw [hbody]
    exact hlines
  · have h1 : (order.map (fun kv => (hdrLineStr kv).data)).countP
        (fun l => ctPfxChars.isPrefixOf l) = 0 :=
      hdrLines_countP_zero p.Header order hord 'C' (("ontent-Type:").data)
        (by decide) (by decide) (by decide) (by decide)
    rw [hbody, hlines, List.countP_append, h1]
    rfl
  · have h2 : (order.map (fun kv => (hdrLineStr kv).data)).countP
        (fun l => dashdash.isPrefixOf l) = 0 :=
      hdrLines_countP_zero p.Header order hord '-' (['-'])
        (by decide) (by decide) (by decide) (by decide)
    rw [hbody, hlines, List.countP_append, h2]
    rfl
  · simp [Send, htls, hauth, hdial, afterConnect, afterAuth, hmail, hrcpt, hopen,
      hwrite, hclose, hquit]

def netOk : Network :=
  { tlsDial := fun _ _ => .ok (), newClient := fun _ => .ok (),
    plainDial := fun _ => .ok (), authCram := fun _ _ => .ok (),
    authPlain := fun _ _ _ => .ok (), mail := fun _ => .ok (),
    rcpt := fun _ => .ok (), dataOpen := .ok (), dataWrite := fun _ => .ok (),
    dataClose := .ok (), quit := .ok () }

def p9W : Params := GenParams (("h.example")) 25 hW [] none none

/-- C9 witness: the bodiless send instantiated on a concrete Params and an
all-accepting server. -/
theorem claim_C9_witness :
    (p9W.Body = [] ∧ p9W.TlsConfig = none ∧ p9W.AuthConfig = none
      ∧ (∀ kv ∈ headerPairs p9W.Header, '\r' ∉ kv.2.data))
    ∧ Send p9W (headerPairs p9W.Header) rW netOk
        = ([SmtpOp.plainDial, SmtpOp.mail, SmtpOp.rcpt, SmtpOp.dataOpen,
            SmtpOp.dataWrite, SmtpOp.dataClose, SmtpOp.quit], .ok ()) :=
  ⟨⟨rfl, rfl, rfl, by decide⟩,
    (claim_C9 p9W (headerPairs p9W.Header) rW netOk rfl (List.Perm.refl _) (by decide)
      rfl rfl (fun _ => rfl) (fun _ => rfl) (fun _ => rfl) rfl (fun _ => rfl) rfl
      rfl).2.2.2.2⟩

/-- C10: every AuthConfig produced by the public constructors has exactly
one variant populated: GenCRAMMD5Auth sets only Crammd5Auth and
GenPlainAuth sets only PlainAuth. -/
theorem claim_C10 (u s pw host : String) :
    (GenCRAMMD5Auth u s).Crammd5Auth = some { UserName := u, Secret := s }
    ∧ (GenCRAMMD5Auth u s).PlainAuth = none
    ∧ (GenPlainAuth u pw host).PlainAuth
        = some { UserName := u, Password := pw, Host := host }
    ∧ (GenPlainAuth u pw host).Crammd5Auth = none :=
  ⟨rfl, rfl, rfl, rfl⟩

/-- C8: GenBodyFromFiles, HtmlFromFiles and TextFromFiles index the first
file name with no guard: on the empty list the call does not return an
error value but fails (index out of range, modelled as none); a value is
returned exactly when the file list is non-empty. -/
theorem claim_C8 (eng : TemplateEngine) (ct cs : String)
    (params : List (String × String)) :
    (∀ fns : List String, fns = [] →
      GenBodyFromFiles eng ct cs fns params = none
      ∧ HtmlFromFiles eng fns params = none
      ∧ TextFromFiles eng fns params = none)
    ∧ (∀ fns : List String, fns ≠ [] →
      (GenBodyFromFiles eng ct cs fns params).isSome = true
      ∧ (HtmlFromFiles eng fns params).isSome = true
      ∧ (TextFromFiles eng fns params).isSome = true) := by
  constructor
  · intro fns hfns
    subst hfns
    exact ⟨rfl, rfl, rfl⟩
  · intro fns hfns
    match fns with
    | [] => exact absurd rfl hfns
    | f0 :: rest => exact ⟨rfl, rfl, rfl⟩

def engW : TemplateEngine :=
  { parseFiles := fun _ _ => .ok 0, executeTpl := fun _ _ => .ok (("out")) }

/-- C8 witness: the empty list fails while a one-element list succeeds, on
a concrete engine. -/
theorem claim_C8_witness :
    (([] : List String) = [] ∧ ([("a.html")] : List String) ≠ [])
    ∧ GenBodyFromFiles engW (("text/html")) (("UTF-8")) [] [] = none
    ∧ (GenBodyFromFiles engW (("text/html")) (("UTF-8")) [("a.html")] []).isSome
        = true :=
  ⟨⟨rfl, by decide⟩,
    ((claim_C8 engW (("text/html")) (("UTF-8")) []).1 [] rfl).1,
    ((claim_C8 engW (("text/html")) (("UTF-8")) []).2 [("a.html")] (by decide)).1⟩

/-- C6: when the connection step fails (TLS dial, client wrap, or plain
dial), Send returns the connection error at once and the operation trace
contains no authentication and no Mail, Rcpt or Data command. -/
theorem claim_C6 (p : Params) (order : List (String × String)) (r : Nat → Fin 36)
    (net : Network) :
    (∀ cfg e, p.TlsConfig = some cfg → net.tlsDial (smtpAddr p) cfg = .error e →
      Send p order r net = ([SmtpOp.tlsDial], .error (("tls.Dial() error. err=") ++ e))
      ∧ ∀ op ∈ [SmtpOp.authCram, SmtpOp.authPlain, SmtpOp.mail, SmtpOp.rcpt,
          SmtpOp.dataOpen], op ∉ (Send p order r net).1)
    ∧ (∀ cfg e, p.TlsConfig = some cfg → net.tlsDial (smtpAddr p) cfg = .ok () →
        net.newClient p.SmtpServerHost = .error e →
      Send p order r net = ([SmtpOp.tlsDial, SmtpOp.newClient],
        .error (("smtp.NewClient() error. err=") ++ e))
      ∧ ∀ op ∈ [SmtpOp.authCram, SmtpOp.authPlain, SmtpOp.mail, SmtpOp.rcpt,
          SmtpOp.dataOpen], op ∉ (Send p order r net).1)
    ∧ (∀ e, p.TlsConfig = none → net.plainDial (smtpAddr p) = .error e →
      Send p order r net = ([SmtpOp.plainDial],
        .error (("smtp.Dial() error. err=") ++ e))
      ∧ ∀ op ∈ [SmtpOp.authCram, SmtpOp.authPlain, SmtpOp.mail, SmtpOp.rcpt,
          SmtpOp.dataOpen], op ∉ (Send p order r net).1) := by
  refine ⟨?_, ?_, ?_⟩
  · intro cfg e htls hfail
    have hsend : Send p order r net
        = ([SmtpOp.tlsDial], .error (("tls.Dial() error. err=") ++ e)) := by
      simp [Send, htls, hfail]
    exact ⟨hsend, by rw [hsend]; simp⟩
  · intro cfg e htls hok hfail
    have hsend : Send p order r net
        = ([SmtpOp.tlsDial, SmtpOp.newClient],
           .error (("smtp.NewClient() error. err=") ++ e)) := by
      simp [Send, htls, hok, hfail]
    exact ⟨hsend, by rw [hsend]; simp⟩
  · intro e htls hfail
    have hsend : Send p order r net
        = ([SmtpOp.plainDial], .error (("smtp.Dial() error. err=") ++ e)) := by
      simp [Send, htls, hfail]
    exact ⟨hsend, by rw [hsend]; simp⟩

def netFailDial : Network := { netOk with plainDial := fun _ => .error (("refused")) }

/-- C6 witness: a plain dial failure on a concrete Params yields the
connection error with a trace containing only the dial attempt. -/
theorem claim_C6_witness :
    (p9W.TlsConfig = none ∧ netFailDial.plainDial (smtpAddr p9W) = .error (("refused")))
    ∧ Send p9W (headerPairs hW) rW netFailDial
        = ([SmtpOp.plainDial], .error (("smtp.Dial() error. err=") ++ ("refused"))) :=
  ⟨⟨rfl, rfl⟩,
    ((claim_C6 p9W (headerPairs hW) rW netFailDial).2.2 ("refused") rfl rfl).1⟩

theorem afterAuth_trace (p : Params) (net : Network) (body : String)
    (acc : List SmtpOp) :
    ∃ ext res, afterAuth p net body acc = (acc ++ ext, res) := by
  unfold afterAuth
  repeat' split
  all_goals exact ⟨_, _, rfl⟩

/-- C7: with an AuthConfig present, CRAM-MD5 is attempted first when
populated and plain auth is attempted after it when populated; the first
failing authentication attempt makes Send return the auth error at once,
with no Mail command in the trace. -/
theorem claim_C7 (p : Params) (ac : AuthConfig) (ca : CRAMMD5Auth) (pa : PlainAuth)
    (order : List (String × String)) (r : Nat → Fin 36) (net : Network)
    (hauth : p.AuthConfig = some ac)
    (htls : p.TlsConfig = none)
    (hdial : net.plainDial (smtpAddr p) = .ok ()) :
    (ac.Crammd5Auth = some ca → ac.PlainAuth = some pa →
      net.authCram ca.UserName ca.Secret = .ok () →
      ∃ ext res, Send p order r net
        = ([SmtpOp.plainDial, SmtpOp.authCram, SmtpOp.authPlain] ++ ext, res))
    ∧ (∀ e, ac.Crammd5Auth = some ca → net.authCram ca.UserName ca.Secret = .error e →
      Send p order r net = ([SmtpOp.plainDial, SmtpOp.authCram],
        .error (("(*Client) Auth() error. err=") ++ e))
      ∧ SmtpOp.mail ∉ (Send p order r net).1)
    ∧ (∀ e, ac.Crammd5Auth = some ca → ac.PlainAuth = some pa →
      net.authCram ca.UserName ca.Secret = .ok () →
      net.authPlain pa.UserName pa.Password pa.Host = .error e →
      Send p order r net = ([SmtpOp.plainDial, SmtpOp.authCram, SmtpOp.authPlain],
        .error (("(*Client) Auth() error. err=") ++ e))
      ∧ SmtpOp.mail ∉ (Send p order r net).1) := by
  refine ⟨?_, ?_, ?_⟩
  · intro hc hp hok
    cases hpl : net.authPlain pa.UserName pa.Password pa.Host with
    | error e =>
      refine ⟨[], .error (("(*Client) Auth() error. err=") ++ e), ?_⟩
      simp [Send, htls, hdial, afterConnect, hauth, hc, hok, tryPlainAuth, hp, hpl]
    | ok u =>
      cases u
      obtain ⟨ext, res, hext⟩ := afterAuth_trace p net
        (assembleMsg order p.Body (genBoundary r))
        [SmtpOp.plainDial, SmtpOp.authCram, SmtpOp.authPlain]
      refine ⟨ext, res, ?_⟩
      simp [Send, htls, hdial, afterConnect, hauth, hc, hok, tryPlainAuth, hp, hpl, hext]
  · intro e hc hfail
    have hsend : Send p order r net = ([SmtpOp.plainDial, SmtpOp.authCram],
        .error (("(*Client) Auth() error. err=") ++ e)) := by
      simp [Send, htls, hdial, afterConnect, hauth, hc, hfail]
    exact ⟨hsend, by rw [hsend]; simp⟩
  · intro e hc hp hok hfail
    have hsend : Send p order r net
        = ([SmtpOp.plainDial, SmtpOp.authCram, SmtpOp.authPlain],
           .error (("(*Client) Auth() error. err=") ++ e)) := by
      simp [Send, htls, hdial, afterConnect, hauth, hc, hok, tryPlainAuth, hp, hfail]
    exact ⟨hsend, by rw [hsend]; simp⟩

def caW : CRAMMD5Auth := { UserName := ("u"), Secret := ("s") }

def paW : PlainAuth := { UserName := ("u"), Password := ("pw"), Host := ("h.example") }

def acBoth : AuthConfig := { Crammd5Auth := some caW, PlainAuth := some paW }

def pC7 : Params := GenParams (("h.example")) 25 hW [] (some acBoth) none

/-- C7 witness: a Params with both auth variants populated sends CRAM-MD5
first and then plain auth, on an all-accepting server. -/
theorem claim_C7_witness :
    (pC7.AuthConfig = some acBoth ∧ pC7.TlsConfig = none
      ∧ netOk.plainDial (smtpAddr pC7) = .ok ()
      ∧ acBoth.Crammd5Auth = some caW ∧ acBoth.PlainAuth = some paW
      ∧ netOk.authCram caW.UserName caW.Secret = .ok ())
    ∧ ∃ ext res, Send pC7 (headerPairs hW) rW netOk
        = ([SmtpOp.plainDial, SmtpOp.authCram, SmtpOp.authPlain] ++ ext, res) :=
  ⟨⟨rfl, rfl, rfl, rfl, rfl, rfl⟩,
    (claim_C7 pC7 acBoth caW paW (headerPairs hW) rW netOk rfl rfl rfl).1 rfl rfl rfl⟩

def order4bad : List (String × String) :=
  [(("To"), hW.To), (("From"), hW.From), (("Subject"), hW.Subject),
   (("MIME-version"), hW.MimeVersion)]

/-- C4: headers are emitted by iterating a map, so the wire order is not
fixed: order4bad is a legal iteration order of the same four header pairs,
and under it the assembled message does not begin with the From line,
while the insertion-order iteration does begin with it. -/
theorem claim_C4 :
    (headerPairs hW).Perm order4bad
    ∧ ((("From: ").data).isPrefixOf
        (assembleMsg order4bad [] (genBoundary rW)).data) = false
    ∧ ((("From: ").data).isPrefixOf
        (assembleMsg (headerPairs hW) [] (genBoundary rW)).data) = true :=
  ⟨List.Perm.swap _ _ _, by decide, by decide⟩

def netCloseFail : Network := { netOk with dataClose := .error (("boom")) }

def netQuitFail : Network := { netOk with quit := .error (("boom")) }

/-- C5: a failure when closing the data-writing channel is reported under
the Quit label: Send returns the error string "(*Client) Quit() error.
err=boom" for a data-close failure, byte-identical to the error of a
genuine Quit failure, so the data-close phase is not reported under the
name of its own operation. -/
theorem claim_C5 :
    Send p9W (headerPairs hW) rW netCloseFail
      = ([SmtpOp.plainDial, SmtpOp.mail, SmtpOp.rcpt, SmtpOp.dataOpen,
          SmtpOp.dataWrite, SmtpOp.dataClose],
         .error (("(*Client) Quit() error. err=boom")))
    ∧ (Send p9W (headerPairs hW) rW netQuitFail).2
      = .error (("(*Client) Quit() error. err=boom")) :=
  ⟨rfl, rfl⟩
